import Mathlib

/-!
Shallow embedding of the PETS pre-emptive round-robin scheduler
(`src/src/scheduler.rs`, `src/src/task.rs`, `src/src/stack.rs`,
`src/src/stack_pusher.rs`, `src/src/lib.rs`).

The target is a 32-bit Arm Cortex-M machine, so `usize` and `u32` are both
modelled as `Nat` reduced modulo `2 ^ 32` where overflow matters.  Atomic
fields become plain record fields: the source only ever touches them inside
interrupt-disabled critical sections or from a single CPU, so the operations
are modelled as sequential state transformers.
-/

namespace Pets

/-- Modulus of the 32-bit machine words (`u32`, and `usize` on this target). -/
def U32_MOD : Nat := 2 ^ 32

/-- Largest `usize` value; `usize::MAX` is the scheduler's sentinel task id. -/
def USIZE_MAX : Nat := 2 ^ 32 - 1

/-- From `task.rs`: a task record.  `stack` is the stored stack-pointer value
(an address, in bytes) and `entry_fn` the entry function pointer.

Modelled from the spec: the `parked` flag.  `src/src/scheduler.rs` calls
`Task::park`, `Task::unpark` and `Task::parked`, but the copy of
`src/src/task.rs` in the tree is an older snapshot without that field; spec
§4.3 describes it: an atomic flag, true means "not currently runnable",
initially false, set by `park()`, cleared by `unpark()`, read by `parked()`. -/
structure Task where
  stack : Nat
  entry_fn : Nat
  parked : Bool
deriving DecidableEq

/-- Modelled from the spec: `Task::park` — set the parked flag. -/
def Task.park (t : Task) : Task := { t with parked := true }

/-- Modelled from the spec: `Task::unpark` — clear the parked flag. -/
def Task.unpark (t : Task) : Task := { t with parked := false }

/-- From `scheduler.rs`: the result of `Scheduler::pick_next_task`.
`NewTask` carries the payload of the `TaskId` newtype. -/
inductive TaskSelection where
  | NewTask (id : Nat)
  | CurrentTask
  | NoTasks
deriving DecidableEq

/-- From `scheduler.rs`: the `TaskId` newtype over `usize`. -/
structure TaskId where
  id : Nat
deriving DecidableEq

/-- From `scheduler.rs`: `TaskId::INVALID_ID`, the id produced when the
scheduler is not running. -/
def TaskId.INVALID_ID : Nat := USIZE_MAX

/-- From `scheduler.rs`: `TaskId::is_invalid`. -/
def TaskId.is_invalid (t : TaskId) : Bool := t.id == TaskId.INVALID_ID

/-- From `scheduler.rs`: `TaskId::invalid`. -/
def TaskId.invalid : TaskId := ⟨TaskId.INVALID_ID⟩

/-- From `scheduler.rs`: the `Display` impl for `TaskId` — `"T---"` when
invalid, otherwise `T{:03}` (the index zero-padded to width 3). -/
def TaskId.display (t : TaskId) : String :=
  if t.is_invalid then "T---"
  else
    let s := toString t.id
    "T" ++ String.mk (List.replicate (3 - s.length) '0') ++ s

/-- From `scheduler.rs`: the scheduler state.  `task_list` is the borrowed
static slice of tasks; `current_task` and `next_task` are `usize` indexes
(`current_task = USIZE_MAX` is the sentinel); `ticks` is the `u32` counter. -/
structure Scheduler where
  current_task : Nat
  next_task : Nat
  task_list : List Task
  ticks : Nat
deriving DecidableEq

/-- From `scheduler.rs`: `Scheduler::new`.  The source `assert!`s that the
task list is non-empty (a compile-time panic), modelled as `none`. -/
def Scheduler.new (task_list : List Task) : Option Scheduler :=
  if task_list.isEmpty then none
  else some { current_task := USIZE_MAX, next_task := 0, task_list := task_list, ticks := 0 }

/-- From `scheduler.rs` (`pick_next_task` body): the `while idx >= num_tasks
{ idx -= num_tasks }` wrap-around loop. -/
def wrapIndex (idx num_tasks : Nat) : Nat :=
  if h : 0 < num_tasks ∧ num_tasks ≤ idx then wrapIndex (idx - num_tasks) num_tasks
  else idx
termination_by idx
decreasing_by exact Nat.sub_lt (Nat.lt_of_lt_of_le h.1 h.2) h.1

/-- From `scheduler.rs` (`pick_next_task` body): the scan
`for mut idx in (current_task + 1)..=(current_task + num_tasks)`, which wraps
each index and stops at the first task whose parked flag is false.  `fuel` is
the number of loop iterations left; the scan starts with `fuel = num_tasks`.
The `none` arm of the index lookup mirrors the slice-indexing panic; it is
unreachable because the wrapped index is below `num_tasks`. -/
def scanForUnparked (task_list : List Task) (num_tasks : Nat) : Nat → Nat → Option Nat
  | _, 0 => none
  | idx0, fuel + 1 =>
    let idx := wrapIndex idx0 num_tasks
    match task_list.get? idx with
    | some task => if !task.parked then some idx else scanForUnparked task_list num_tasks (idx0 + 1) fuel
    | none => none

/-- From `scheduler.rs`: `Scheduler::pick_next_task`.  Runs in an
interrupt-free critical section in the source, so it is a pure function of
the state here. -/
def Scheduler.pick_next_task (s : Scheduler) : TaskSelection :=
  let current_task := s.current_task
  if current_task = USIZE_MAX then .NewTask 0
  else
    let num_tasks := s.task_list.length
    match scanForUnparked s.task_list num_tasks (current_task + 1) num_tasks with
    | some task_id => if task_id = current_task then .CurrentTask else .NewTask task_id
    | none => .NoTasks

/-- From `scheduler.rs` (`sched_tick`, the non-Armv6-M cfg):
`self.ticks.fetch_add(1, Ordering::Relaxed)` — a wrapping add on a `u32`. -/
def tick_increment_fetch_add (ticks : Nat) : Nat := (ticks + 1) % U32_MOD

/-- From `scheduler.rs` (`sched_tick`, the Armv6-M / v8-M Baseline cfg):
`self.ticks.store(self.ticks.load().wrapping_add(1))` inside
`cortex_m::interrupt::free`. -/
def tick_increment_critical_section (ticks : Nat) : Nat := (ticks + 1) % U32_MOD

/-- From `scheduler.rs`: `Scheduler::sched_tick`.  Unparks every task,
increments the tick counter, then picks the next task; on `NewTask` it
stores the id into `next_task` and sets PendSV.  The returned `Bool` records
whether `SCB::set_pendsv()` was called. -/
def Scheduler.sched_tick (s : Scheduler) : Scheduler × Bool :=
  let s1 : Scheduler := { s with task_list := s.task_list.map Task.unpark }
  let s2 : Scheduler := { s1 with ticks := tick_increment_fetch_add s1.ticks }
  match s2.pick_next_task with
  | .NewTask task_id => ({ s2 with next_task := task_id }, true)
  | .CurrentTask => (s2, false)
  | .NoTasks => (s2, false)

/-- From `scheduler.rs`: `Scheduler::now`. -/
def Scheduler.now (s : Scheduler) : Nat := s.ticks

/-- From `scheduler.rs`: `Scheduler::current_task_id`. -/
def Scheduler.current_task_id (s : Scheduler) : TaskId := ⟨s.current_task⟩

/-- Observable outcome of `Scheduler::yield_until_tick` when it does not
panic: either it published a new task and set PendSV, or it ran
`wfi(); isb()` because no task was runnable. -/
inductive YieldOutcome where
  | Switched
  | Slept
deriving DecidableEq

/-- From `scheduler.rs`: `Scheduler::yield_until_tick`.  Indexing
`self.task_list[task_id]` with an out-of-range id panics, as does the
`TaskSelection::CurrentTask` arm; both panics are modelled as `.error`. -/
def Scheduler.yield_until_tick (s : Scheduler) : Except String (Scheduler × YieldOutcome) :=
  let task_id := s.current_task
  match s.task_list.get? task_id with
  | none => .error "index out of bounds"
  | some task =>
    let s1 : Scheduler := { s with task_list := s.task_list.set task_id task.park }
    match s1.pick_next_task with
    | .NewTask new_id => .ok ({ s1 with next_task := new_id }, .Switched)
    | .CurrentTask => .error "Picked a task we just parked?!"
    | .NoTasks => .ok (s1, .Slept)

/-- From `src/src/lib.rs` / `src/src/asm/*.rs` (PendSV, step "copy the next
task id to the current task id"): the state change the context-switch
handler makes to the scheduler fields. -/
def contextSwitch (s : Scheduler) : Scheduler :=
  { s with current_task := s.next_task }

/-- One timer period with no voluntary yields: the SysTick handler runs
`sched_tick`, and if PendSV was requested the context switch fires before
control returns to a task. -/
def tickStep (s : Scheduler) : Scheduler :=
  let r := s.sched_tick
  if r.2 then contextSwitch r.1 else r.1

/-- The global `SCHEDULER_PTR`, modelled as `none` (null) or `some` of the
scheduler state it points at. -/
def get_scheduler (ptr : Option Scheduler) : Option Scheduler :=
  match ptr with
  | none => none
  | some s => some s

/-- From `lib.rs`: the free function `now()`. -/
def now (ptr : Option Scheduler) : Nat :=
  match get_scheduler ptr with
  | some scheduler => scheduler.now
  | none => 0

/-- From `lib.rs`: the free function `task_id()`. -/
def task_id (ptr : Option Scheduler) : TaskId :=
  match get_scheduler ptr with
  | some scheduler => scheduler.current_task_id
  | none => TaskId.invalid

/-- From `lib.rs` (`delay`): `now().wrapping_sub(start)` on `u32` values. -/
def wrapping_sub (a b : Nat) : Nat := (a + U32_MOD - b % U32_MOD) % U32_MOD

/-- From `lib.rs`: the loop body of `delay`.  Each list element is the value
`scheduler.now()` reads after one `yield_until_tick`; the result is the
number of yields performed before `break`, or `none` if the trace ends with
the loop still running. -/
def delayLoop (ticks start : Nat) : List Nat → Option Nat
  | [] => none
  | nowValue :: rest =>
    if wrapping_sub nowValue start ≥ ticks then some 1
    else
      match delayLoop ticks start rest with
      | some yields => some (yields + 1)
      | none => none

/-- From `lib.rs`: the free function `delay`.  `Scheduler::get_scheduler()
.unwrap()` panics when the global pointer is null, modelled as the outer
`none`; otherwise `start` is recorded from `scheduler.now()` and the loop
runs over the trace of subsequent `now()` readings. -/
def delay (ptr : Option Scheduler) (ticks : Nat) (nows : List Nat) : Option (Option Nat) :=
  match get_scheduler ptr with
  | none => none
  | some scheduler => some (delayLoop ticks scheduler.now nows)

/-- From `stack.rs`: `Stack::<LEN>::top` — the address one past the buffer,
for a buffer starting at `base` (the `repr(align(8))` start address). -/
def Stack.top (base LEN : Nat) : Nat := base + LEN

/-- From `scheduler.rs`: `MIN_STACK_SIZE` under `cfg(arm_abi = "eabi")`:
sixteen 32-bit registers plus headroom. -/
def MIN_STACK_SIZE : Nat := 4 * 16 + 8

/-- From `scheduler.rs`: `MIN_STACK_SIZE` under `cfg(arm_abi = "eabihf")`. -/
def MIN_STACK_SIZE_EABIHF : Nat := 4 * 49 + 8

/-- From `task.rs`: `Task::new` — asserts `N > MIN_STACK_SIZE` at compile
time (modelled as `none`) and seeds `stack` with `stack.top()`.  The parked
flag starts clear (spec §4.3). -/
def Task.new (entry_fn base LEN : Nat) : Option Task :=
  if MIN_STACK_SIZE < LEN then some { stack := Stack.top base LEN, entry_fn := entry_fn, parked := false }
  else none

/-- From `stack_pusher.rs`: the `StackPusher` cursor.  `writes` records the
volatile stores in program order as (byte address, `u32` value) pairs. -/
structure StackPusher where
  ptr : Nat
  writes : List (Nat × Nat)
deriving DecidableEq

/-- From `stack_pusher.rs`: `StackPusher::new`. -/
def StackPusher.new (stack_top : Nat) : StackPusher := ⟨stack_top, []⟩

/-- From `stack_pusher.rs`: `StackPusher::push` — pre-decrement the cursor by
one 32-bit word, then write the value. -/
def StackPusher.push (sp : StackPusher) (value : Nat) : StackPusher :=
  { ptr := sp.ptr - 4, writes := sp.writes ++ [(sp.ptr - 4, value % U32_MOD)] }

/-- From `stack_pusher.rs`: `StackPusher::current`. -/
def StackPusher.current (sp : StackPusher) : Nat := sp.ptr

/-- From `scheduler.rs`: `DEFAULT_CPSR`, the initial xPSR with only the
Thumb bit set. -/
def DEFAULT_CPSR : Nat := 1 <<< 24

/-- From `scheduler.rs` (`Scheduler::start`, the per-task loop body): the
seventeen pushes that synthesise a task's initial exception frame, starting
from the task's stored stack-top.  Note the `0xFFFFFFFD` EXC_RETURN copy is
pushed unconditionally — there is no `cfg` on it in the source. -/
def initFrame (entry_fn stack_top : Nat) : StackPusher :=
  let sp := StackPusher.new stack_top
  let sp := sp.push DEFAULT_CPSR
  let sp := sp.push entry_fn
  let sp := sp.push 0
  let sp := sp.push 0
  let sp := sp.push 0
  let sp := sp.push 0
  let sp := sp.push 0
  let sp := sp.push 0
  let sp := sp.push 0xFFFFFFFD
  let sp := sp.push 0
  let sp := sp.push 0
  let sp := sp.push 0
  let sp := sp.push 0
  let sp := sp.push 0
  let sp := sp.push 0
  let sp := sp.push 0
  let sp := sp.push 0
  sp

/-- From `scheduler.rs` (`Scheduler::start`): after the pushes, the pusher's
current pointer is stored back as the task's stack pointer. -/
def startTaskInit (t : Task) : Task :=
  { t with stack := (initFrame t.entry_fn t.stack).current }

/-- The index invariants of spec §3: `current_task` is the sentinel or in
range, and `next_task` is always in range. -/
def Scheduler.inv (s : Scheduler) : Prop :=
  (s.current_task = USIZE_MAX ∨ s.current_task < s.task_list.length) ∧
    s.next_task < s.task_list.length

instance (s : Scheduler) : Decidable s.inv := by
  unfold Scheduler.inv
  infer_instance

/-- Predicate used by the spec-side selection: the spec's "task whose parked
flag is false", read through the same index lookup as the source. -/
def unparkedAt (task_list : List Task) (idx : Nat) : Bool :=
  match task_list.get? idx with
  | some t => !t.parked
  | none => false

/-- The task-selection algorithm written from the spec's words (§4.6), for
comparison with `Scheduler.pick_next_task`: if `current_task` is the
sentinel, task 0; otherwise scan indexes `current_task + 1, current_task +
2, ...` reduced modulo `N` for `N` positions and take the first unparked
one; "keep current" if it is the current task, "no tasks" if none. -/
def specSelection (s : Scheduler) : TaskSelection :=
  if s.current_task = USIZE_MAX then .NewTask 0
  else
    let n := s.task_list.length
    match ((List.range n).map fun k => (s.current_task + 1 + k) % n).find?
        (unparkedAt s.task_list) with
    | some idx => if idx = s.current_task then .CurrentTask else .NewTask idx
    | none => .NoTasks

theorem wrapIndex_eq_mod (i n : Nat) (hn : 0 < n) : wrapIndex i n = i % n := by
  induction i using Nat.strong_induction_on with
  | _ i ih =>
    rw [wrapIndex]
    by_cases h : n ≤ i
    · rw [dif_pos ⟨hn, h⟩, ih (i - n) (Nat.sub_lt (Nat.lt_of_lt_of_le hn h) hn)]
      exact (Nat.mod_eq_sub_mod h).symm
    · rw [dif_neg (by tauto)]
      exact (Nat.mod_eq_of_lt (Nat.lt_of_not_le h)).symm

theorem scanForUnparked_some (task_list : List Task) (num_tasks i0 fuel idx : Nat)
    (h : scanForUnparked task_list num_tasks i0 fuel = some idx) :
    ∃ t, task_list.get? idx = some t ∧ t.parked = false := by
  induction fuel generalizing i0 with
  | zero => simp [scanForUnparked] at h
  | succ fuel ih =>
    rw [scanForUnparked] at h
    cases hg : task_list.get? (wrapIndex i0 num_tasks) with
    | none =>
      simp only [hg] at h
      exact Option.noConfusion h
    | some task =>
      simp only [hg] at h
      by_cases hp : task.parked
      · simp only [hp, Bool.not_true, Bool.false_eq_true, if_false] at h
        exact ih (i0 + 1) h
      · simp only [Bool.not_eq_true] at hp
        simp only [hp, Bool.not_false, if_true, Option.some.injEq] at h
        exact ⟨task, h ▸ hg, hp⟩

theorem scanForUnparked_some_lt (task_list : List Task) (num_tasks i0 fuel idx : Nat)
    (h : scanForUnparked task_list num_tasks i0 fuel = some idx) :
    idx < task_list.length := by
  obtain ⟨t, ht, -⟩ := scanForUnparked_some task_list num_tasks i0 fuel idx h
  rw [List.get?_eq_getElem?] at ht
  exact (List.getElem?_eq_some.mp ht).1

theorem scanForUnparked_eq_find (task_list : List Task) (i0 fuel : Nat)
    (hn : 0 < task_list.length) :
    scanForUnparked task_list task_list.length i0 fuel =
      ((List.range fuel).map fun k => (i0 + k) % task_list.length).find?
        (unparkedAt task_list) := by
  induction fuel generalizing i0 with
  | zero => simp [scanForUnparked]
  | succ fuel ih =>
    rw [scanForUnparked, List.range_succ_eq_map, List.map_cons, List.map_map,
      List.find?_cons]
    have hw : wrapIndex i0 task_list.length = i0 % task_list.length :=
      wrapIndex_eq_mod i0 task_list.length hn
    have hlt : i0 % task_list.length < task_list.length := Nat.mod_lt i0 hn
    have hget : task_list.get? (i0 % task_list.length) =
        some (task_list.get ⟨i0 % task_list.length, hlt⟩) := List.get?_eq_get hlt
    have hu : unparkedAt task_list (i0 % task_list.length) =
        !(task_list.get ⟨i0 % task_list.length, hlt⟩).parked := by
      unfold unparkedAt
      rw [hget]
    have hmap : ((fun k => (i0 + k) % task_list.length) ∘ Nat.succ) =
        fun k => (i0 + 1 + k) % task_list.length := by
      funext k
      simp only [Function.comp]
      congr 1
      omega
    simp only [hw, Nat.add_zero, hget, hu, hmap]
    by_cases hp : (task_list.get ⟨i0 % task_list.length, hlt⟩).parked
    · simp only [hp, Bool.not_true, Bool.false_eq_true, if_false]
      exact ih (i0 + 1)
    · simp only [Bool.not_eq_true] at hp
      simp only [hp, Bool.not_false, if_true]

/-- C1: `Scheduler::pick_next_task` implements exactly the selection
algorithm the spec describes: sentinel current task gives task 0; otherwise
the first unparked task at index `current_task + 1, current_task + 2, ...`
taken modulo `N` over `N` positions is returned as a new task — unless it is
the current task ("keep current") — and "no tasks" results when every task
is parked. -/
theorem pick_next_task_eq_spec (s : Scheduler) (hne : s.task_list ≠ []) :
    s.pick_next_task = specSelection s := by
  unfold Scheduler.pick_next_task specSelection
  by_cases hc : s.current_task = USIZE_MAX
  · simp [hc]
  · have hn : 0 < s.task_list.length := List.length_pos.mpr hne
    simp only [hc, if_false]
    rw [scanForUnparked_eq_find s.task_list (s.current_task + 1) s.task_list.length hn]

/-- Witness for C1 at a concrete three-task scheduler with a parked task. -/
theorem pick_next_task_eq_spec_witness :
    Scheduler.pick_next_task
        { current_task := 1, next_task := 0,
          task_list := [{ stack := 0, entry_fn := 0, parked := false },
            { stack := 0, entry_fn := 0, parked := false },
            { stack := 0, entry_fn := 0, parked := true }],
          ticks := 0 } =
      specSelection
        { current_task := 1, next_task := 0,
          task_list := [{ stack := 0, entry_fn := 0, parked := false },
            { stack := 0, entry_fn := 0, parked := false },
            { stack := 0, entry_fn := 0, parked := true }],
          ticks := 0 } :=
  pick_next_task_eq_spec _ (by decide)

/-- C4: one call to `Scheduler::sched_tick` unparks every task, bumps the
tick counter by exactly one modulo `2 ^ 32` (both cfg variants of the
increment compute the same function), and then runs selection on the
resulting state: a new task is stored into `next_task` with PendSV requested
exactly in the `NewTask` case, and `next_task` is left alone with no request
in the `CurrentTask` and `NoTasks` cases.  `current_task` is untouched. -/
theorem sched_tick_correct (s : Scheduler) :
    (s.sched_tick).1.task_list = s.task_list.map Task.unpark ∧
    (∀ t, t ∈ (s.sched_tick).1.task_list → t.parked = false) ∧
    (s.sched_tick).1.ticks = (s.ticks + 1) % U32_MOD ∧
    (s.sched_tick).1.current_task = s.current_task ∧
    tick_increment_fetch_add = tick_increment_critical_section ∧
    (match (({ s with task_list := s.task_list.map Task.unpark, ticks := tick_increment_fetch_add s.ticks } : Scheduler)).pick_next_task with
      | .NewTask id => (s.sched_tick).1.next_task = id ∧ (s.sched_tick).2 = true
      | .CurrentTask => (s.sched_tick).1.next_task = s.next_task ∧ (s.sched_tick).2 = false
      | .NoTasks => (s.sched_tick).1.next_task = s.next_task ∧ (s.sched_tick).2 = false) := by
  have hunparked : ∀ t, t ∈ s.task_list.map Task.unpark → t.parked = false := by
    intro t ht
    obtain ⟨u, -, rfl⟩ := List.mem_map.mp ht
    rfl
  unfold Scheduler.sched_tick tick_increment_fetch_add
  cases hpick : (({ s with task_list := s.task_list.map Task.unpark, ticks := (s.ticks + 1) % U32_MOD } : Scheduler)).pick_next_task with
  | NewTask id =>
    simp only [hpick]
    simp [hunparked]
    exact ⟨fun a _ => rfl, rfl⟩
  | CurrentTask =>
    simp only [hpick]
    simp [hunparked]
    exact ⟨fun a _ => rfl, rfl⟩
  | NoTasks =>
    simp only [hpick]
    simp [hunparked]
    exact ⟨fun a _ => rfl, rfl⟩

/-- C6: with a valid (non-sentinel, in-range) current task,
`Scheduler::yield_until_tick` never reaches the "Picked a task we just
parked?!" panic: it parks the current task, and then either publishes a
different, unparked task into `next_task` (requesting PendSV), or sleeps on
`wfi`/`isb` when no task is runnable. -/
theorem yield_until_tick_safe (s : Scheduler)
    (hlt : s.current_task < s.task_list.length) (hs : s.current_task ≠ USIZE_MAX) :
    ∃ r, s.yield_until_tick = Except.ok r ∧
      (r.1.task_list.get? s.current_task).map Task.parked = some true ∧
      (r.2 = .Switched →
        r.1.next_task < s.task_list.length ∧ r.1.next_task ≠ s.current_task ∧
          (r.1.task_list.get? r.1.next_task).map Task.parked = some false) ∧
      (r.2 = .Switched ∨ r.2 = .Slept) := by
  have hget : s.task_list.get? s.current_task =
      some (s.task_list.get ⟨s.current_task, hlt⟩) := List.get?_eq_get hlt
  set task := s.task_list.get ⟨s.current_task, hlt⟩ with htask
  have hcur : (s.task_list.set s.current_task task.park).get? s.current_task =
      some task.park := List.get?_set_eq_of_lt task.park hlt
  unfold Scheduler.yield_until_tick Scheduler.pick_next_task
  simp only [hget, hs, if_false, List.length_set]
  cases hscan : scanForUnparked (s.task_list.set s.current_task task.park)
      s.task_list.length (s.current_task + 1) s.task_list.length with
  | some idx =>
    obtain ⟨t, hti, htp⟩ := scanForUnparked_some _ _ _ _ _ hscan
    have hidx : idx ≠ s.current_task := by
      intro heq
      rw [heq, hcur] at hti
      cases hti
      exact absurd htp (by simp [Task.park])
    have hidxlt : idx < s.task_list.length := by
      have := scanForUnparked_some_lt _ _ _ _ _ hscan
      simpa using this
    simp only [hidx, if_false]
    refine ⟨(⟨s.current_task, idx, s.task_list.set s.current_task task.park, s.ticks⟩,
      .Switched), rfl, ?_, ?_, Or.inl rfl⟩
    · simpa using congrArg (Option.map Task.parked) hcur
    · intro _
      refine ⟨hidxlt, hidx, ?_⟩
      rw [hti]
      simp [htp]
  | none =>
    refine ⟨(⟨s.current_task, s.next_task, s.task_list.set s.current_task task.park,
      s.ticks⟩, .Slept), rfl, ?_, ?_, Or.inr rfl⟩
    · simpa using congrArg (Option.map Task.parked) hcur
    · intro hcontra
      exact absurd hcontra (by simp)

/-- Witness for C6: two unparked tasks, current task 0; yielding parks task
0 and switches to task 1. -/
theorem yield_until_tick_safe_witness :
    ∃ r, Scheduler.yield_until_tick
        { current_task := 0, next_task := 0,
          task_list := [{ stack := 100, entry_fn := 10, parked := false },
            { stack := 200, entry_fn := 20, parked := false }],
          ticks := 0 } = Except.ok r ∧
      (r.1.task_list.get? 0).map Task.parked = some true ∧
      (r.2 = .Switched →
        r.1.next_task < 2 ∧ r.1.next_task ≠ 0 ∧
          (r.1.task_list.get? r.1.next_task).map Task.parked = some false) ∧
      (r.2 = .Switched ∨ r.2 = .Slept) :=
  yield_until_tick_safe _ (by decide) (by decide)

theorem scanForUnparked_all_unparked (task_list : List Task) (i0 fuel : Nat)
    (hall : ∀ t, t ∈ task_list → t.parked = false) (hn : 0 < task_list.length)
    (hf : 0 < fuel) :
    scanForUnparked task_list task_list.length i0 fuel =
      some (i0 % task_list.length) := by
  cases fuel with
  | zero => omega
  | succ fuel =>
    rw [scanForUnparked]
    have hw : wrapIndex i0 task_list.length = i0 % task_list.length :=
      wrapIndex_eq_mod i0 task_list.length hn
    have hlt : i0 % task_list.length < task_list.length := Nat.mod_lt i0 hn
    have hget : task_list.get? (i0 % task_list.length) =
        some (task_list.get ⟨i0 % task_list.length, hlt⟩) := List.get?_eq_get hlt
    have hp : (task_list.get ⟨i0 % task_list.length, hlt⟩).parked = false :=
      hall _ (task_list.get_mem _ _)
    simp only [hw, hget, hp, Bool.not_false, if_true]

theorem pick_of_all_unparked (s : Scheduler) (hs : s.current_task ≠ USIZE_MAX)
    (hn : 0 < s.task_list.length)
    (hall : ∀ t, t ∈ s.task_list → t.parked = false) :
    s.pick_next_task =
      if (s.current_task + 1) % s.task_list.length = s.current_task
        then TaskSelection.CurrentTask
        else TaskSelection.NewTask ((s.current_task + 1) % s.task_list.length) := by
  unfold Scheduler.pick_next_task
  simp only [hs, if_false,
    scanForUnparked_all_unparked s.task_list (s.current_task + 1) s.task_list.length hall hn hn]

theorem tickStep_task_list_length (s : Scheduler) :
    (tickStep s).task_list.length = s.task_list.length := by
  unfold tickStep Scheduler.sched_tick
  cases hpick : (({ s with task_list := s.task_list.map Task.unpark, ticks := tick_increment_fetch_add s.ticks } : Scheduler)).pick_next_task <;>
    simp [contextSwitch, hpick]

theorem tickStep_current (s : Scheduler) (hmax : s.task_list.length ≤ USIZE_MAX)
    (hlt : s.current_task < s.task_list.length) :
    (tickStep s).current_task =
      if s.task_list.length = 1 then s.current_task
      else (s.current_task + 1) % s.task_list.length := by
  have hn : 0 < s.task_list.length := Nat.lt_of_le_of_lt (Nat.zero_le _) hlt
  have hs : s.current_task ≠ USIZE_MAX := by omega
  set s2 : Scheduler := { s with task_list := s.task_list.map Task.unpark, ticks := tick_increment_fetch_add s.ticks } with hs2
  have hall : ∀ t, t ∈ s2.task_list → t.parked = false := by
    intro t ht
    simp only [hs2] at ht
    obtain ⟨u, -, rfl⟩ := List.mem_map.mp ht
    rfl
  have hlen2 : s2.task_list.length = s.task_list.length := by simp [hs2]
  have hcur2 : s2.current_task = s.current_task := rfl
  have hpick := pick_of_all_unparked s2 (by rw [hcur2]; exact hs) (by omega) hall
  rw [hcur2, hlen2] at hpick
  simp only [tickStep, Scheduler.sched_tick]
  rw [← hs2, hpick]
  by_cases h1 : s.task_list.length = 1
  · have hmod : (s.current_task + 1) % s.task_list.length = s.current_task := by
      rw [h1]
      omega
    rw [if_pos hmod]
    simp [h1]
  · have hne : (s.current_task + 1) % s.task_list.length ≠ s.current_task := by
      rcases Nat.lt_or_ge (s.current_task + 1) s.task_list.length with hc | hc
      · rw [Nat.mod_eq_of_lt hc]
        omega
      · have hceq : s.current_task + 1 = s.task_list.length := by omega
        rw [hceq, Nat.mod_self]
        omega
    rw [if_neg hne]
    simp [h1, contextSwitch]

theorem tickStep_pendsv_of_single (s : Scheduler) (hmax : s.task_list.length ≤ USIZE_MAX)
    (hlt : s.current_task < s.task_list.length) (h1 : s.task_list.length = 1) :
    (s.sched_tick).2 = false := by
  have hn : 0 < s.task_list.length := Nat.lt_of_le_of_lt (Nat.zero_le _) hlt
  have hs : s.current_task ≠ USIZE_MAX := by omega
  set s2 : Scheduler := { s with task_list := s.task_list.map Task.unpark, ticks := tick_increment_fetch_add s.ticks } with hs2
  have hall : ∀ t, t ∈ s2.task_list → t.parked = false := by
    intro t ht
    simp only [hs2] at ht
    obtain ⟨u, -, rfl⟩ := List.mem_map.mp ht
    rfl
  have hlen2 : s2.task_list.length = s.task_list.length := by simp [hs2]
  have hpick := pick_of_all_unparked s2 hs (by omega) hall
  rw [hlen2] at hpick
  have hmod : (s.current_task + 1) % s.task_list.length = s.current_task := by
    rw [h1]
    omega
  rw [hmod, if_pos rfl] at hpick
  simp only [Scheduler.sched_tick]
  rw [← hs2, hpick]

/-- C7: over `N ≥ 2` tasks with no voluntary yields, each tick step (a
`sched_tick` followed by the PendSV switch it requests) advances the running
task index by exactly one modulo `N`, so after `k` ticks the current task is
`(c + k) % N`; for `N = 1` the selection keeps the current task and no
switch is requested. -/
theorem round_robin_cycle (s : Scheduler) (hmax : s.task_list.length ≤ USIZE_MAX)
    (hlt : s.current_task < s.task_list.length) :
    (2 ≤ s.task_list.length →
      ∀ k, (tickStep^[k] s).current_task =
        (s.current_task + k) % s.task_list.length) ∧
    (s.task_list.length = 1 →
      (s.sched_tick).2 = false ∧ (tickStep s).current_task = s.current_task) := by
  constructor
  · intro h2 k
    induction k with
    | zero =>
      simp [Nat.mod_eq_of_lt hlt]
    | succ k ih =>
      have hlen : (tickStep^[k] s).task_list.length = s.task_list.length := by
        clear ih
        induction k with
        | zero => rfl
        | succ k ih =>
          rw [Function.iterate_succ_apply', tickStep_task_list_length, ih]
      have hlt' : (tickStep^[k] s).current_task < (tickStep^[k] s).task_list.length := by
        rw [hlen, ih]
        exact Nat.mod_lt _ (by omega)
      rw [Function.iterate_succ_apply',
        tickStep_current (tickStep^[k] s) (by rw [hlen]; exact hmax) hlt', hlen, ih,
        if_neg (by omega), Nat.mod_add_mod]
      congr 1
  · intro h1
    refine ⟨tickStep_pendsv_of_single s hmax hlt h1, ?_⟩
    rw [tickStep_current s hmax hlt, if_pos h1]

/-- Witness for C7: two always-running tasks starting at task 0; after three
tick steps the current task is `(0 + 3) % 2 = 1`. -/
theorem round_robin_cycle_witness :
    (tickStep^[3]
        ({ current_task := 0, next_task := 0,
           task_list := [{ stack := 100, entry_fn := 10, parked := false },
             { stack := 200, entry_fn := 20, parked := false }],
           ticks := 0 } : Scheduler)).current_task = (0 + 3) % 2 :=
  (round_robin_cycle _ (by decide) (by decide)).1 (by decide) 3

theorem pick_newtask_lt (s : Scheduler) (hn : 0 < s.task_list.length) :
    ∀ id, s.pick_next_task = TaskSelection.NewTask id → id < s.task_list.length := by
  intro id h
  unfold Scheduler.pick_next_task at h
  by_cases hc : s.current_task = USIZE_MAX
  · simp only [hc, if_true, TaskSelection.NewTask.injEq] at h
    omega
  · simp only [hc, if_false] at h
    cases hscan : scanForUnparked s.task_list s.task_list.length
        (s.current_task + 1) s.task_list.length with
    | some idx =>
      rw [hscan] at h
      by_cases hidx : idx = s.current_task
      · simp only [hidx, if_true] at h
        exact TaskSelection.noConfusion h
      · simp only [hidx, if_false, TaskSelection.NewTask.injEq] at h
        rw [← h]
        exact scanForUnparked_some_lt _ _ _ _ _ hscan
    | none => rw [hscan] at h; exact TaskSelection.noConfusion h

/-- C8: the index invariants hold at construction and are preserved by every
operation: `current_task` is the sentinel or in range and `next_task` is in
range after `new`; every id `pick_next_task` returns as `NewTask` is in
range; `sched_tick`, `yield_until_tick` (when it returns) and the PendSV
copy of `next_task` into `current_task` all preserve the invariant. -/
theorem index_invariants :
    (∀ (tl : List Task) (s : Scheduler), Scheduler.new tl = some s → s.inv) ∧
    (∀ (s : Scheduler) (id : Nat), s.inv → s.pick_next_task = TaskSelection.NewTask id →
      id < s.task_list.length) ∧
    (∀ (s : Scheduler), s.inv → (s.sched_tick).1.inv) ∧
    (∀ (s : Scheduler) (r : Scheduler × YieldOutcome), s.inv →
      s.yield_until_tick = Except.ok r → r.1.inv) ∧
    (∀ (s : Scheduler), s.inv → (contextSwitch s).inv) := by
  refine ⟨?_, ?_, ?_, ?_, ?_⟩
  · intro tl s h
    unfold Scheduler.new at h
    by_cases he : tl.isEmpty
    · rw [if_pos he] at h
      exact Option.noConfusion h
    · rw [if_neg he] at h
      cases h
      have hne : tl ≠ [] := by
        intro hnil
        subst hnil
        exact he rfl
      exact ⟨Or.inl rfl, List.length_pos.mpr hne⟩
  · intro s id hinv hpick
    exact pick_newtask_lt s (Nat.lt_of_le_of_lt (Nat.zero_le _) hinv.2) id hpick
  · intro s hinv
    obtain ⟨hcur, hnext⟩ := hinv
    have hn : 0 < s.task_list.length := Nat.lt_of_le_of_lt (Nat.zero_le _) hnext
    simp only [Scheduler.sched_tick]
    cases hpick : (({ s with task_list := s.task_list.map Task.unpark, ticks := tick_increment_fetch_add s.ticks } : Scheduler)).pick_next_task with
    | NewTask id =>
      have hid := pick_newtask_lt _ (by simpa using hn) id hpick
      simp only [hpick]
      exact ⟨by simpa using hcur, by simpa using hid⟩
    | CurrentTask =>
      simp only [hpick]
      exact ⟨by simpa using hcur, by simpa using hnext⟩
    | NoTasks =>
      simp only [hpick]
      exact ⟨by simpa using hcur, by simpa using hnext⟩
  · intro s r hinv hok
    obtain ⟨hcur, hnext⟩ := hinv
    unfold Scheduler.yield_until_tick at hok
    cases hget : s.task_list.get? s.current_task with
    | none =>
      simp only [hget] at hok
      exact Except.noConfusion hok
    | some task =>
      simp only [hget] at hok
      cases hpick : (({ s with task_list := s.task_list.set s.current_task task.park } : Scheduler)).pick_next_task with
      | NewTask id =>
        have hid := pick_newtask_lt _ (by simpa using Nat.lt_of_le_of_lt (Nat.zero_le _) hnext) id hpick
        rw [hpick] at hok
        cases hok
        exact ⟨by simpa using hcur, by simpa using hid⟩
      | CurrentTask =>
        rw [hpick] at hok
        exact Except.noConfusion hok
      | NoTasks =>
        rw [hpick] at hok
        cases hok
        exact ⟨by simpa using hcur, by simpa using hnext⟩
  · intro s hinv
    exact ⟨Or.inr hinv.2, hinv.2⟩

/-- Witness for C8: a freshly constructed single-task scheduler satisfies
the invariant and keeps it across a tick. -/
theorem index_invariants_witness :
    (Scheduler.sched_tick
        { current_task := USIZE_MAX, next_task := 0,
          task_list := [{ stack := 100, entry_fn := 200, parked := false }],
          ticks := 0 }).1.inv :=
  index_invariants.2.2.1 _ (by decide)

theorem initFrame_current (e top : Nat) : (initFrame e top).current = top - 68 := by
  simp only [initFrame, StackPusher.new, StackPusher.push, StackPusher.current, Nat.sub_sub]

theorem initFrame_writes (e top : Nat) (he : e < U32_MOD) :
    (initFrame e top).writes =
      [(top - 4, DEFAULT_CPSR), (top - 8, e), (top - 12, 0), (top - 16, 0),
       (top - 20, 0), (top - 24, 0), (top - 28, 0), (top - 32, 0),
       (top - 36, 0xFFFFFFFD), (top - 40, 0), (top - 44, 0), (top - 48, 0),
       (top - 52, 0), (top - 56, 0), (top - 60, 0), (top - 64, 0),
       (top - 68, 0)] := by
  simp only [initFrame, StackPusher.new, StackPusher.push, Nat.sub_sub,
    List.nil_append, List.cons_append, List.append_nil]
  norm_num [DEFAULT_CPSR, U32_MOD, Nat.mod_eq_of_lt he]
  exact ⟨by decide, he⟩

/-- C2 counterexample: the initial frame that `Scheduler::start` synthesises
always contains the `0xFFFFFFFD` EXC_RETURN word — the push has no `cfg`
gate in `scheduler.rs`, so the non-FPU (`eabi`) build does not omit it: the
frame is 17 words, not 16. -/
theorem initial_frame_has_exc_return :
    (initFrame 4096 8192).writes.length = 17 ∧
      (((initFrame 4096 8192).writes.map Prod.snd).contains 0xFFFFFFFD) = true := by
  decide

/-- C2 (amended): the frame `Scheduler::start` pushes for each task holds,
from the highest address down: xPSR = `1 <<< 24`, PC = the entry function,
zeros for LR, R12, R3..R0, then — on every variant, the push being
unconditional in the source — the EXC_RETURN copy `0xFFFFFFFD`, then zeros
for R11..R4; the final pusher position `top - 68` (the address of the last
pushed word) is stored back as the task's stack pointer. -/
theorem initial_frame_layout (e top : Nat) (he : e < U32_MOD) :
    (initFrame e top).writes =
      [(top - 4, DEFAULT_CPSR), (top - 8, e), (top - 12, 0), (top - 16, 0),
       (top - 20, 0), (top - 24, 0), (top - 28, 0), (top - 32, 0),
       (top - 36, 0xFFFFFFFD), (top - 40, 0), (top - 44, 0), (top - 48, 0),
       (top - 52, 0), (top - 56, 0), (top - 60, 0), (top - 64, 0),
       (top - 68, 0)] ∧
    (initFrame e top).current = top - 68 ∧
    (∀ t : Task, (startTaskInit t).stack = (initFrame t.entry_fn t.stack).current ∧
      (startTaskInit t).entry_fn = t.entry_fn ∧ (startTaskInit t).parked = t.parked) :=
  ⟨initFrame_writes e top he, initFrame_current e top, fun _ => ⟨rfl, rfl, rfl⟩⟩

/-- Witness for C2 (amended) at a concrete entry point and stack top. -/
theorem initial_frame_layout_witness :
    (initFrame 4096 8192).current = 8192 - 68 :=
  (initial_frame_layout 4096 8192 (by decide)).2.1

/-- C3 counterexample: with `base = 0` (8-aligned, per `repr(align(8))`) and
`LEN = 80` (a multiple of 4 and above `MIN_STACK_SIZE`, so the constructor
assertions pass), the pointer stored by `start` is `80 - 68 = 12`, which is
not 8-byte aligned; and with the equally valid `LEN = 76`, the pointer
`Task::new` installs (`top = 76`) is not 8-byte aligned either. -/
theorem stack_pointer_not_8_aligned :
    (0 % 8 = 0 ∧ 80 % 4 = 0 ∧ MIN_STACK_SIZE < 80 ∧
      ¬(initFrame 100 (Stack.top 0 80)).current % 8 = 0) ∧
    (0 % 8 = 0 ∧ 76 % 4 = 0 ∧ MIN_STACK_SIZE < 76 ∧
      ¬(Stack.top 0 76) % 8 = 0) := by
  decide

/-- C3 (amended): for every stack passing the constructor assertions
(`LEN % 4 = 0`, `LEN > MIN_STACK_SIZE`) on an 8-aligned base, the pointer
installed by `Task::new` and the pointer stored by `start` after pushing the
initial frame both lie inside (or one past the top of) the buffer and are
4-byte (word) aligned. -/
theorem stack_pointer_in_bounds (base LEN e : Nat)
    (hb : base % 8 = 0) (h4 : LEN % 4 = 0) (hmin : MIN_STACK_SIZE < LEN) :
    (∀ t, Task.new e base LEN = some t →
      base ≤ t.stack ∧ t.stack ≤ base + LEN ∧ t.stack % 4 = 0) ∧
    (base ≤ (initFrame e (Stack.top base LEN)).current ∧
      (initFrame e (Stack.top base LEN)).current ≤ base + LEN ∧
      (initFrame e (Stack.top base LEN)).current % 4 = 0) := by
  have hmin' : 4 * 16 + 8 < LEN := hmin
  constructor
  · intro t ht
    unfold Task.new at ht
    rw [if_pos hmin] at ht
    cases ht
    show base ≤ Stack.top base LEN ∧ Stack.top base LEN ≤ base + LEN ∧
      Stack.top base LEN % 4 = 0
    unfold Stack.top
    refine ⟨by omega, by omega, by omega⟩
  · rw [initFrame_current]
    unfold Stack.top
    refine ⟨by omega, by omega, by omega⟩

/-- Witness for C3 (amended) at `base = 0`, `LEN = 76`. -/
theorem stack_pointer_in_bounds_witness :
    0 ≤ (initFrame 100 (Stack.top 0 76)).current ∧
      (initFrame 100 (Stack.top 0 76)).current ≤ 0 + 76 ∧
      (initFrame 100 (Stack.top 0 76)).current % 4 = 0 :=
  (stack_pointer_in_bounds 0 76 100 (by decide) (by decide) (by decide)).2

/-- C5: `delay` records `start` from the scheduler's tick counter and loops,
yielding first; it returns after the first yield whose subsequent `now()`
reading satisfies `wrapping_sub now start ≥ ticks`, every earlier reading
failing the test — so the comparison survives the `2 ^ 32` wrap — and
`delay(0)` performs exactly one yield. -/
theorem delay_loop_correct :
    (∀ (s : Scheduler) (ticks : Nat) (nows : List Nat),
      delay (some s) ticks nows = some (delayLoop ticks s.now nows)) ∧
    (∀ (start v : Nat) (rest : List Nat), delayLoop 0 start (v :: rest) = some 1) ∧
    (∀ (ticks start : Nat) (nows : List Nat) (j : Nat),
      delayLoop ticks start nows = some j →
        1 ≤ j ∧
        (∃ v, nows.get? (j - 1) = some v ∧ ticks ≤ wrapping_sub v start) ∧
        (∀ i v, i + 1 < j → nows.get? i = some v → wrapping_sub v start < ticks)) := by
  refine ⟨fun s ticks nows => rfl, fun start v rest => by simp [delayLoop], ?_⟩
  intro ticks start nows
  induction nows with
  | nil =>
    intro j h
    simp [delayLoop] at h
  | cons v rest ih =>
    intro j h
    rw [delayLoop] at h
    by_cases hc : ticks ≤ wrapping_sub v start
    · rw [if_pos hc] at h
      cases h
      refine ⟨Nat.le_refl 1, ⟨v, rfl, hc⟩, ?_⟩
      intro i v' hi
      omega
    · rw [if_neg hc] at h
      cases hrec : delayLoop ticks start rest with
      | none =>
        rw [hrec] at h
        exact Option.noConfusion h
      | some k =>
        rw [hrec] at h
        cases h
        obtain ⟨hk1, ⟨v', hv', hge⟩, hbefore⟩ := ih k hrec
        refine ⟨by omega, ⟨v', ?_, hge⟩, ?_⟩
        · cases k with
          | zero => omega
          | succ m =>
            simpa using hv'
        · intro i v'' hi hg
          cases i with
          | zero =>
            simp only [List.get?] at hg
            cases hg
            omega
          | succ m =>
            simp only [List.get?] at hg
            exact hbefore m v'' (by omega) hg

/-- Witness for C5: a delay of 5 ticks started 3 ticks before the `u32`
counter wraps returns after exactly 5 yields, the final reading being on the
far side of the wrap. -/
theorem delay_loop_correct_witness :
    1 ≤ 5 ∧
    (∃ v, ([4294967294, 4294967295, 0, 1, 2] : List Nat).get? (5 - 1) = some v ∧
      5 ≤ wrapping_sub v 4294967293) ∧
    (∀ i v, i + 1 < 5 →
      ([4294967294, 4294967295, 0, 1, 2] : List Nat).get? i = some v →
      wrapping_sub v 4294967293 < 5) :=
  delay_loop_correct.2.2 5 4294967293 [4294967294, 4294967295, 0, 1, 2] 5 (by decide)

/-- C9: while the global scheduler pointer is null, the free function
`now()` returns 0 and `task_id()` returns the invalid sentinel (for which
`is_invalid` holds and which displays as `T---`); once the pointer is set,
`now()` reads the scheduler's tick counter and `task_id()` wraps the current
task index. -/
theorem free_functions_before_start :
    now none = 0 ∧
    task_id none = TaskId.invalid ∧
    (task_id none).is_invalid = true ∧
    (task_id none).display = "T---" ∧
    (∀ s : Scheduler, now (some s) = s.ticks) ∧
    (∀ s : Scheduler, task_id (some s) = ⟨s.current_task⟩) :=
  ⟨rfl, rfl, by decide, by decide, fun s => rfl, fun s => rfl⟩

/-- C10: unlike `now()` and `task_id()`, the free function `delay` unwraps
`get_scheduler()` and therefore panics — modelled as `none` — for every
argument when the global scheduler pointer is still null. -/
theorem delay_panics_before_start :
    ∀ (ticks : Nat) (nows : List Nat), delay none ticks nows = none :=
  fun _ _ => rfl

end Pets
